import Mathlib

set_option maxRecDepth 8192

/-!
# PBA-CSV: verification of the password-based CSV encryption core

Shallow embedding of the repository's encryption module
(`encryption/encryption.js`) and of the CSV-building helper of
`backend/server.js`, with theorems settling the frozen claims.

Modelling conventions:

* JavaScript `Buffer`s are `List Nat` with entries below 256 wherever the
  source guarantees it; only lengths are ever validated by the source.
* The Node `crypto` library is external to the repository.  Its primitives
  are modelled by executable functions that keep the structure the source
  relies on: `crypto.pbkdf2` is a deterministic function of
  (password, salt, iterations, keyLength, digest) whose output has the
  requested length and in which a change of any salt byte changes the
  corresponding key byte; AES-256-GCM is modelled in counter mode
  (ciphertext = plaintext XOR keystream, hence length-preserving and
  involutive) with a 16-byte authentication tag that is a
  GHASH-style polynomial accumulator over a prime field in the nonce and
  ciphertext bytes together with a key residue, so that — exactly as for
  real GCM with a nonzero hash key — any single-byte change of the nonce,
  ciphertext, stored tag, or (via the key schedule) salt changes the
  recomputed tag.  The keystream generator itself is an arbitrary
  deterministic byte mixer; no claim depends on its distribution.
* `crypto.randomBytes n` is modelled by reading `n` bytes from an ambient
  stream `rnd : Nat → Nat` (reduced mod 256); `seal`-side functions take
  one stream per `randomBytes` call site.
* `JSON.stringify`/`JSON.parse` are Node library functions whose exact
  round-trip on envelope objects the source relies on; the envelope is
  therefore modelled at the JSON value level (`Jval`), property access
  `data.field` returning `none` on absent fields or non-objects.
* `Buffer.from(x, 'base64')` is Node's lenient base64 decoder: characters
  outside the base64 alphabet (including `=`) are ignored and the
  remaining sextets are decoded in groups.  `buf.toString('base64')` is
  the standard padded encoder.  `Buffer.from(s, 'utf-8')` /
  `buf.toString('utf-8')` are the standard UTF-8 transcoders.
* JavaScript exceptions are modelled by `Except String`, the `String`
  being the `Error` message; the source's catch-and-rewrap pattern
  (`Decryption failed: ${error.message}` etc.) is reproduced verbatim.
-/

/-! ## Bytes -/

abbrev Bytes := List Nat

/-- Little-endian value of a byte string (base-256 digits). -/
def natOfBytes : Bytes → Nat
  | [] => 0
  | b :: r => b + 256 * natOfBytes r

/-- Model of `crypto.randomBytes(n)`: `n` bytes drawn from the ambient
random stream. -/
def randomBytes (n : Nat) (rnd : Nat → Nat) : Bytes :=
  (List.range n).map (fun i => rnd i % 256)

theorem randomBytes_length (n : Nat) (rnd : Nat → Nat) :
    (randomBytes n rnd).length = n := by
  simp [randomBytes]

theorem randomBytes_lt (n : Nat) (rnd : Nat → Nat) :
    ∀ b ∈ randomBytes n rnd, b < 256 := by
  intro b hb
  simp only [randomBytes, List.mem_map] at hb
  obtain ⟨i, _, rfl⟩ := hb
  exact Nat.mod_lt _ (by omega)

/-! ## UTF-8 transcoding (model of `Buffer.from(s, 'utf-8')` and
`buf.toString('utf-8')`) -/

/-- UTF-8 encoding of a single code point (valid code points are below
`0x110000`). -/
def utf8EncodeCp (c : Nat) : List Nat :=
  if c < 0x80 then [c]
  else if c < 0x800 then [0xC0 + c / 64, 0x80 + c % 64]
  else if c < 0x10000 then
    [0xE0 + c / 4096, 0x80 + c / 64 % 64, 0x80 + c % 64]
  else
    [0xF0 + c / 0x40000, 0x80 + c / 4096 % 64, 0x80 + c / 64 % 64, 0x80 + c % 64]

/-- Fuelled UTF-8 decoder to code points, dispatching on the leading
byte; one unit of fuel is spent per decoded code point and each step
consumes at least one byte, so fuel equal to the byte length suffices.
On well-formed UTF-8 (all that the round-trip theorems use) this inverts
`utf8EncodeCp`; malformed sequences decode to unspecified code points,
standing in for Node's replacement-character behaviour. -/
def utf8DecodeGo : Nat → List Nat → List Nat
  | 0, _ => []
  | _ + 1, [] => []
  | fuel + 1, b0 :: rest =>
    if b0 < 0x80 then b0 :: utf8DecodeGo fuel rest
    else if b0 < 0xC0 then 0xFFFD :: utf8DecodeGo fuel rest
    else if b0 < 0xE0 then
      ((b0 - 0xC0) * 64 + (rest.headD 0 - 0x80)) :: utf8DecodeGo fuel (rest.drop 1)
    else if b0 < 0xF0 then
      (((b0 - 0xE0) * 64 + (rest.headD 0 - 0x80)) * 64
          + ((rest.drop 1).headD 0 - 0x80)) :: utf8DecodeGo fuel (rest.drop 2)
    else
      ((((b0 - 0xF0) * 64 + (rest.headD 0 - 0x80)) * 64
          + ((rest.drop 1).headD 0 - 0x80)) * 64
          + ((rest.drop 2).headD 0 - 0x80)) :: utf8DecodeGo fuel (rest.drop 3)

def utf8DecodeNats (l : List Nat) : List Nat :=
  utf8DecodeGo l.length l

/-- `Buffer.from(s, 'utf-8')`. -/
def utf8Encode (s : String) : Bytes :=
  (s.data.map Char.toNat).flatMap utf8EncodeCp

/-- `buf.toString('utf-8')`. -/
def utf8DecodeString (b : Bytes) : String :=
  ⟨(utf8DecodeNats b).map Char.ofNat⟩

theorem char_toNat_lt (c : Char) : c.toNat < 0x110000 := by
  rcases c.valid with h | ⟨h1, h2⟩
  · exact lt_trans h (by norm_num)
  · exact h2

theorem utf8EncodeCp_lt (c : Nat) (hc : c < 0x110000) :
    ∀ b ∈ utf8EncodeCp c, b < 256 := by
  intro b hb
  unfold utf8EncodeCp at hb
  split at hb
  · simp at hb; omega
  · split at hb
    · simp at hb
      rcases hb with h | h <;> omega
    · split at hb
      · simp at hb
        rcases hb with h | h | h <;> omega
      · simp at hb
        rcases hb with h | h | h | h <;> omega

theorem utf8Encode_lt (s : String) : ∀ b ∈ utf8Encode s, b < 256 := by
  intro b hb
  simp only [utf8Encode, List.mem_flatMap, List.mem_map] at hb
  obtain ⟨cp, ⟨c, _, rfl⟩, hmem⟩ := hb
  exact utf8EncodeCp_lt _ (char_toNat_lt c) _ hmem

theorem utf8EncodeCp_ne_nil (c : Nat) : utf8EncodeCp c ≠ [] := by
  unfold utf8EncodeCp
  split
  · simp
  · split
    · simp
    · split <;> simp

theorem utf8DecodeGo_encode (cps : List Nat) :
    ∀ (fuel : Nat), (∀ c ∈ cps, c < 0x110000) →
      (cps.flatMap utf8EncodeCp).length ≤ fuel →
      utf8DecodeGo fuel (cps.flatMap utf8EncodeCp) = cps := by
  induction cps with
  | nil =>
    intro fuel _ _
    cases fuel <;> rfl
  | cons c rest ih =>
    intro fuel h hfuel
    have hc : c < 0x110000 := h c (List.mem_cons_self c rest)
    simp only [List.flatMap_cons] at hfuel ⊢
    obtain ⟨f, rfl⟩ : ∃ f, fuel = f + 1 := by
      rcases fuel with _ | f
      · exfalso
        have : utf8EncodeCp c ++ rest.flatMap utf8EncodeCp = [] :=
          List.eq_nil_of_length_eq_zero (by omega)
        exact utf8EncodeCp_ne_nil c (List.append_eq_nil.mp this).1
      · exact ⟨f, rfl⟩
    have hrest : utf8DecodeGo f (rest.flatMap utf8EncodeCp) = rest := by
      apply ih f (fun x hx => h x (List.mem_cons_of_mem c hx))
      have h1 : 1 ≤ (utf8EncodeCp c).length := by
        rcases he : utf8EncodeCp c with _ | ⟨a, l⟩
        · exact absurd he (utf8EncodeCp_ne_nil c)
        · simp
      rw [List.length_append] at hfuel
      omega
    by_cases h1 : c < 0x80
    · have henc : utf8EncodeCp c = [c] := by
        unfold utf8EncodeCp; rw [if_pos h1]
      rw [henc]
      simp only [List.cons_append, List.nil_append]
      unfold utf8DecodeGo
      rw [if_pos h1, hrest]
    · by_cases h2 : c < 0x800
      · have henc : utf8EncodeCp c = [0xC0 + c / 64, 0x80 + c % 64] := by
          unfold utf8EncodeCp; rw [if_neg h1, if_pos h2]
        rw [henc]
        simp only [List.cons_append, List.nil_append]
        unfold utf8DecodeGo
        rw [if_neg (by omega), if_neg (by omega), if_pos (by omega)]
        simp only [List.headD_cons, List.drop_succ_cons, List.drop_zero]
        rw [hrest]
        congr 1
        omega
      · by_cases h3 : c < 0x10000
        · have henc : utf8EncodeCp c
              = [0xE0 + c / 4096, 0x80 + c / 64 % 64, 0x80 + c % 64] := by
            unfold utf8EncodeCp; rw [if_neg h1, if_neg h2, if_pos h3]
          rw [henc]
          simp only [List.cons_append, List.nil_append]
          unfold utf8DecodeGo
          rw [if_neg (by omega), if_neg (by omega), if_neg (by omega),
            if_pos (by omega)]
          simp only [List.headD_cons, List.drop_succ_cons, List.drop_zero]
          rw [hrest]
          congr 1
          omega
        · have henc : utf8EncodeCp c
              = [0xF0 + c / 0x40000, 0x80 + c / 4096 % 64,
                 0x80 + c / 64 % 64, 0x80 + c % 64] := by
            unfold utf8EncodeCp; rw [if_neg h1, if_neg h2, if_neg h3]
          rw [henc]
          simp only [List.cons_append, List.nil_append]
          unfold utf8DecodeGo
          rw [if_neg (by omega), if_neg (by omega), if_neg (by omega),
            if_neg (by omega)]
          simp only [List.headD_cons, List.drop_succ_cons, List.drop_zero]
          rw [hrest]
          congr 1
          omega

theorem utf8DecodeNats_encode (cps : List Nat)
    (h : ∀ c ∈ cps, c < 0x110000) :
    utf8DecodeNats (cps.flatMap utf8EncodeCp) = cps :=
  utf8DecodeGo_encode cps _ h le_rfl

theorem utf8_roundtrip (s : String) : utf8DecodeString (utf8Encode s) = s := by
  unfold utf8DecodeString utf8Encode
  rw [utf8DecodeNats_encode _ (by
    intro c hc
    simp only [List.mem_map] at hc
    obtain ⟨ch, _, rfl⟩ := hc
    exact char_toNat_lt ch)]
  rw [List.map_map]
  have : (Char.ofNat ∘ Char.toNat) = id := by
    funext c
    simp [Function.comp, Char.ofNat_toNat]
  rw [this, List.map_id]

/-! ## Base64 (model of `buf.toString('base64')` and
`Buffer.from(s, 'base64')`) -/

def b64Alphabet : List Char :=
  "ABCDEFGHIJKLMNOPQRSTUVWXYZabcdefghijklmnopqrstuvwxyz0123456789+/".data

/-- Index of a character in the base64 alphabet, `none` for everything
else (including `=`). -/
def b64Val (c : Char) : Option Nat :=
  b64Alphabet.findIdx? (· == c)

def b64Chr (n : Nat) : Char :=
  b64Alphabet.getD n 'A'

/-- Standard padded base64 encoding of a byte string, three bytes at a
time (model of `buf.toString('base64')`). -/
def b64EncodeChars : Bytes → List Char
  | [] => []
  | [x] => [b64Chr (x / 4), b64Chr (x % 4 * 16), '=', '=']
  | [x, y] => [b64Chr (x / 4), b64Chr (x % 4 * 16 + y / 16), b64Chr (y % 16 * 4), '=']
  | x :: y :: z :: rest =>
      b64Chr (x / 4) :: b64Chr (x % 4 * 16 + y / 16)
        :: b64Chr (y % 16 * 4 + z / 64) :: b64Chr (z % 64)
        :: b64EncodeChars rest

def base64Encode (b : Bytes) : String :=
  ⟨b64EncodeChars b⟩

/-- Sextet groups back to bytes: 4 sextets to 3 bytes, a trailing group
of 3 to 2 bytes, of 2 to 1 byte, and a lone sextet is dropped — the
grouping Node uses after discarding non-alphabet characters. -/
def b64Quads : List Nat → Bytes
  | a :: b :: c :: d :: rest =>
      (a * 4 + b / 16) :: (b % 16 * 16 + c / 4) :: (c % 4 * 64 + d)
        :: b64Quads rest
  | [a, b, c] => [a * 4 + b / 16, b % 16 * 16 + c / 4]
  | [a, b] => [a * 4 + b / 16]
  | _ => []

/-- Node's lenient base64 decoder (`Buffer.from(s, 'base64')`): characters
outside the alphabet — including padding and arbitrary junk — are
ignored, never rejected; the surviving sextets are regrouped. -/
def base64Decode (s : String) : Bytes :=
  b64Quads (s.data.filterMap b64Val)

theorem b64Val_chr : ∀ n, n < 64 → b64Val (b64Chr n) = some n := by decide

theorem b64Val_eq : b64Val '=' = none := by decide

theorem b64_roundtrip : ∀ (b : Bytes), (∀ x ∈ b, x < 256) →
    base64Decode (base64Encode b) = b
  | [], _ => rfl
  | [x], h => by
    have hx : x < 256 := h x (by simp)
    show b64Quads (List.filterMap b64Val
      [b64Chr (x / 4), b64Chr (x % 4 * 16), '=', '=']) = [x]
    rw [List.filterMap_cons, b64Val_chr _ (by omega),
      List.filterMap_cons, b64Val_chr _ (by omega),
      List.filterMap_cons, b64Val_eq, List.filterMap_cons, b64Val_eq,
      List.filterMap_nil]
    show [x / 4 * 4 + x % 4 * 16 / 16] = [x]
    congr 1
    omega
  | [x, y], h => by
    have hx : x < 256 := h x (by simp)
    have hy : y < 256 := h y (by simp)
    show b64Quads (List.filterMap b64Val
      [b64Chr (x / 4), b64Chr (x % 4 * 16 + y / 16), b64Chr (y % 16 * 4), '=']) = [x, y]
    rw [List.filterMap_cons, b64Val_chr _ (by omega),
      List.filterMap_cons, b64Val_chr _ (by omega),
      List.filterMap_cons, b64Val_chr _ (by omega),
      List.filterMap_cons, b64Val_eq, List.filterMap_nil]
    show [x / 4 * 4 + (x % 4 * 16 + y / 16) / 16,
      (x % 4 * 16 + y / 16) % 16 * 16 + y % 16 * 4 / 4] = [x, y]
    congr 1
    · omega
    · congr 1
      omega
  | x :: y :: z :: rest, h => by
    have hx : x < 256 := h x (by simp)
    have hy : y < 256 := h y (by simp)
    have hz : z < 256 := h z (by simp)
    have ih := b64_roundtrip rest (fun a ha => h a (by simp [ha]))
    show b64Quads (List.filterMap b64Val
      (b64Chr (x / 4) :: b64Chr (x % 4 * 16 + y / 16)
        :: b64Chr (y % 16 * 4 + z / 64) :: b64Chr (z % 64)
        :: b64EncodeChars rest)) = x :: y :: z :: rest
    rw [List.filterMap_cons, b64Val_chr _ (by omega),
      List.filterMap_cons, b64Val_chr _ (by omega),
      List.filterMap_cons, b64Val_chr _ (by omega),
      List.filterMap_cons, b64Val_chr _ (by omega)]
    show (x / 4 * 4 + (x % 4 * 16 + y / 16) / 16)
        :: ((x % 4 * 16 + y / 16) % 16 * 16 + (y % 16 * 4 + z / 64) / 4)
        :: ((y % 16 * 4 + z / 64) % 4 * 64 + z % 64)
        :: b64Quads (List.filterMap b64Val (b64EncodeChars rest))
      = x :: y :: z :: rest
    rw [show b64Quads (List.filterMap b64Val (b64EncodeChars rest)) = rest from ih]
    congr 1
    · omega
    · congr 1
      · omega
      · congr 1
        omega

theorem base64Encode_length_data (b : Bytes) :
    (base64Encode b).data = b64EncodeChars b := rfl

/-! ## ENCRYPTION_CONFIG (encryption.js) -/

structure EncryptionConfig where
  algorithm : String
  keyLength : Nat
  ivLength : Nat
  tagLength : Nat
  saltLength : Nat
  pbkdf2Iterations : Nat
  pbkdf2Digest : String

def ENCRYPTION_CONFIG : EncryptionConfig :=
  { algorithm := "aes-256-gcm"
    keyLength := 32   -- 256 bits
    ivLength := 16    -- 128 bits (GCM nonce)
    tagLength := 16   -- 128 bits
    saltLength := 32  -- 256 bits
    pbkdf2Iterations := 100000
    pbkdf2Digest := "sha256" }

/-! ## Model of the Node `crypto` primitives

The GHASH-style authenticator works over the prime fields of `gcmP = 1019`
and `gcmQ = 509`; any prime above 255 works for the first and any odd
prime above 255 for the second.  As in real GCM with a nonzero hash key,
a change of a single byte of the authenticated data moves the polynomial
value by `δ · h^j ≠ 0` in a field, so the recomputed tag changes. -/

def gcmP : Nat := 1019
def gcmQ : Nat := 509

/-- Abstract deterministic keystream byte generator standing in for the
AES-CTR blocks; no claim depends on its distribution, only on determinism
and byte range. -/
def gcmKeystream (key iv : Bytes) (n : Nat) : Bytes :=
  (List.range n).map
    (fun i => (natOfBytes key * (2 * i + 3) + natOfBytes iv * (i + 7) + i) % 256)

/-- CTR-mode body: ciphertext is plaintext XOR keystream; the same
function decrypts. -/
def gcmCtr (key iv : Bytes) (data : Bytes) : Bytes :=
  List.zipWith (fun a b => a ^^^ b) data (gcmKeystream key iv data.length)

/-- GCM hash key (a nonzero element of `ZMod gcmP`) derived from the
cipher key. -/
def gcmH (key : Bytes) : Nat :=
  natOfBytes key % (gcmP - 1) + 1

/-- GHASH-style Horner accumulator over `ZMod gcmP`. -/
def gcmGhash (h : Nat) (coeffs : List Nat) : Nat :=
  coeffs.foldl (fun acc c => (acc * h + c) % gcmP) 0

/-- Key residue mixed into the tag (the model counterpart of the
`E_K(J0)` term of GCM, through which the key itself is authenticated). -/
def gcmKeyRes (key : Bytes) : Nat :=
  natOfBytes key % gcmQ

/-- The 16-byte GCM authentication tag of the model: the GHASH of the
nonce, ciphertext and length, and the key residue, in base-256 digits,
zero-padded to the tag length. -/
def gcmTag (key iv ciphertext : Bytes) : Bytes :=
  let g := gcmGhash (gcmH key) (iv ++ ciphertext ++ [ciphertext.length])
  let k := gcmKeyRes key
  [g % 256, g / 256, k % 256, k / 256] ++ List.replicate 12 0

/-- Model of `crypto.pbkdf2`: a deterministic function of
(password, salt, iterations, keyLength, digest) returning `keyLength`
bytes; byte `i` of the key mixes byte `i` of the salt bijectively, so a
change of any salt byte changes the corresponding key byte.  Node's
PBKDF2 accepts a salt of any length. -/
def pbkdf2 (password : String) (salt : Bytes) (iterations keyLen : Nat)
    (digest : String) : Bytes :=
  (List.range keyLen).map
    (fun i =>
      (salt.getD i 0 + natOfBytes (utf8Encode password) * 3
        + natOfBytes (utf8Encode digest) + iterations + i * 5) % 256)

theorem pbkdf2_length (password : String) (salt : Bytes)
    (iterations keyLen : Nat) (digest : String) :
    (pbkdf2 password salt iterations keyLen digest).length = keyLen := by
  simp [pbkdf2]

theorem pbkdf2_lt (password : String) (salt : Bytes)
    (iterations keyLen : Nat) (digest : String) :
    ∀ b ∈ pbkdf2 password salt iterations keyLen digest, b < 256 := by
  intro b hb
  simp only [pbkdf2, List.mem_map] at hb
  obtain ⟨i, _, rfl⟩ := hb
  exact Nat.mod_lt _ (by omega)

theorem gcmTag_length (key iv ciphertext : Bytes) :
    (gcmTag key iv ciphertext).length = 16 := by
  simp [gcmTag]

theorem gcmGhash_lt (h : Nat) (coeffs : List Nat) :
    gcmGhash h coeffs < gcmP := by
  unfold gcmGhash
  suffices hgen : ∀ (cs : List Nat) (acc : Nat), acc < gcmP →
      List.foldl (fun acc c => (acc * h + c) % gcmP) acc cs < gcmP from
    hgen coeffs 0 (by norm_num [gcmP])
  intro cs
  induction cs with
  | nil => intro acc hacc; simpa using hacc
  | cons c cs ih =>
    intro acc _
    exact ih _ (Nat.mod_lt _ (by norm_num [gcmP]))

theorem gcmTag_lt (key iv ciphertext : Bytes) :
    ∀ b ∈ gcmTag key iv ciphertext, b < 256 := by
  intro b hb
  have hg : gcmGhash (gcmH key) (iv ++ ciphertext ++ [ciphertext.length]) < 1019 :=
    gcmGhash_lt _ _
  have hk : gcmKeyRes key < 509 := Nat.mod_lt _ (by norm_num [gcmQ])
  simp only [gcmTag, List.mem_append, List.mem_cons, List.mem_replicate,
    List.not_mem_nil] at hb
  rcases hb with (rfl | rfl | rfl | rfl | h) | ⟨-, rfl⟩
  · exact Nat.mod_lt _ (by omega)
  · omega
  · exact Nat.mod_lt _ (by omega)
  · omega
  · simp at h
  · omega

theorem gcmCtr_length (key iv data : Bytes) :
    (gcmCtr key iv data).length = data.length := by
  simp [gcmCtr, gcmKeystream]

theorem gcmKeystream_lt (key iv : Bytes) (n : Nat) :
    ∀ b ∈ gcmKeystream key iv n, b < 256 := by
  intro b hb
  simp only [gcmKeystream, List.mem_map] at hb
  obtain ⟨i, _, rfl⟩ := hb
  exact Nat.mod_lt _ (by omega)

theorem xor_lt_256 {a b : Nat} (ha : a < 256) (hb : b < 256) :
    a ^^^ b < 256 := by
  have : Nat.bitwise bne a b < 2 ^ 8 :=
    Nat.bitwise_lt (by norm_num at ha ⊢; omega) (by norm_num at hb ⊢; omega)
  simpa [HXor.hXor, Xor.xor, Nat.xor] using this

theorem zipWith_xor_lt : ∀ (d ks : List Nat), (∀ b ∈ d, b < 256) →
    (∀ b ∈ ks, b < 256) →
    ∀ b ∈ List.zipWith (fun a b => a ^^^ b) d ks, b < 256
  | [], _, _, _ => by simp
  | _ :: _, [], _, _ => by simp
  | a :: d, k :: ks, hd, hk => by
    intro b hb
    simp only [List.zipWith_cons_cons, List.mem_cons] at hb
    rcases hb with rfl | hb
    · exact xor_lt_256 (hd a (by simp)) (hk k (by simp))
    · exact zipWith_xor_lt d ks (fun x hx => hd x (by simp [hx]))
        (fun x hx => hk x (by simp [hx])) b hb

theorem gcmCtr_lt (key iv data : Bytes) (hd : ∀ b ∈ data, b < 256) :
    ∀ b ∈ gcmCtr key iv data, b < 256 :=
  zipWith_xor_lt data _ hd (gcmKeystream_lt key iv _)

theorem xor_xor_cancel (a b : Nat) : a ^^^ b ^^^ b = a := by
  rw [Nat.xor_assoc, Nat.xor_self, Nat.xor_zero]

theorem zipWith_xor_cancel : ∀ (d ks : List Nat), d.length ≤ ks.length →
    List.zipWith (fun a b => a ^^^ b)
      (List.zipWith (fun a b => a ^^^ b) d ks) ks = d
  | [], _, _ => by simp
  | _ :: _, [], h => by simp at h
  | a :: d, k :: ks, h => by
    simp only [List.zipWith_cons_cons, xor_xor_cancel]
    rw [zipWith_xor_cancel d ks (by simpa using h)]

/-- Decrypting in CTR mode undoes encrypting. -/
theorem gcmCtr_involutive (key iv data : Bytes) :
    gcmCtr key iv (gcmCtr key iv data) = data := by
  rw [show gcmCtr key iv (gcmCtr key iv data)
      = List.zipWith (fun a b => a ^^^ b) (gcmCtr key iv data)
          (gcmKeystream key iv (gcmCtr key iv data).length) from rfl,
    gcmCtr_length key iv data]
  exact zipWith_xor_cancel data _ (by simp [gcmKeystream])

/-! ## JSON values

`JSON.stringify` on the envelope object and `JSON.parse` on the wire are
the Node JSON library, whose round-trip on these objects is exact, so the
envelope is modelled at the JSON value level.  `Jval.get?` is JavaScript
property access `data.field`, which is `undefined` (`none`) on a missing
key or on a non-object. -/

inductive Jval where
  | str (s : String)
  | num (n : Nat)
  | obj (fields : List (String × Jval))

def Jval.get? : Jval → String → Option Jval
  | .obj fs, k => fs.lookup k
  | _, _ => none

/-- Setting a property of a JSON object (used to model a tampered or
rewritten envelope); a fresh binding at the front shadows any old one. -/
def Jval.set (j : Jval) (key : String) (v : Jval) : Jval :=
  match j with
  | .obj fs => .obj ((key, v) :: fs)
  | _ => j

theorem Jval.get?_set_same (j : Jval) (key : String) (v : Jval)
    (hobj : ∃ fs, j = .obj fs) :
    (j.set key v).get? key = some v := by
  obtain ⟨fs, rfl⟩ := hobj
  simp [Jval.set, Jval.get?, List.lookup]

theorem Jval.get?_set_ne (j : Jval) (key k : String) (v : Jval)
    (h : k ≠ key) : (j.set key v).get? k = j.get? k := by
  cases j with
  | obj fs =>
    simp only [Jval.set, Jval.get?, List.lookup]
    rw [show (k == key) = false from by simpa using h]
  | str s => rfl
  | num n => rfl

/-! ## Error messages

The source throws plain `Error`s; the message strings below are the ones
it constructs (and, for `bufferTypeErrorMsg` and `gcmAuthErrorMsg`, the
ones Node itself throws, which the source's catch blocks re-wrap). -/

/-- Node's `ERR_INVALID_ARG_TYPE` message for `Buffer.from(x, 'base64')`
when `x` is not a string or buffer (e.g. `undefined` from a missing
envelope field, or a JSON number/object). -/
def bufferTypeErrorMsg : String :=
  "The first argument must be of type string or an instance of Buffer, ArrayBuffer, or Array or an Array-like Object"

/-- Node's GCM tag-verification failure message from `decipher.final()`. -/
def gcmAuthErrorMsg : String :=
  "Unsupported state or unable to authenticate data"

/-! ## encryption.js -/

/-- `deriveKeyFromPassword(password, salt = null)`: generate a fresh
32-byte salt when none is given, then PBKDF2 with the fixed
configuration.  No parameter is validated; Node's `crypto.pbkdf2` with
the fixed (positive) iteration count, key length and digest succeeds for
a salt of any length, so the promise never rejects and the model is
total. -/
def deriveKeyFromPassword (password : String) (salt : Option Bytes)
    (rnd : Nat → Nat) : Bytes × Bytes :=
  let salt := match salt with
    | none => randomBytes ENCRYPTION_CONFIG.saltLength rnd
    | some s => s
  (pbkdf2 password salt ENCRYPTION_CONFIG.pbkdf2Iterations
      ENCRYPTION_CONFIG.keyLength ENCRYPTION_CONFIG.pbkdf2Digest,
    salt)

structure EncryptResult where
  ciphertext : Bytes
  iv : Bytes
  tag : Bytes
  algorithm : String
  deriving DecidableEq

/-- `encryptData(data, key, iv = null)`.  `data` is the byte buffer
(`Buffer.from(data, 'utf-8')` has been applied by the caller when the
input was a string); the key length is validated, a random IV is drawn
when none is supplied, and AES-256-GCM produces the ciphertext and the
separate 16-byte tag. -/
def encryptData (data : Bytes) (key : Bytes) (iv : Option Bytes)
    (rnd : Nat → Nat) : Except String EncryptResult :=
  if key.length ≠ ENCRYPTION_CONFIG.keyLength then
    .error ("Key must be " ++ toString ENCRYPTION_CONFIG.keyLength ++ " bytes")
  else
    let iv := match iv with
      | none => randomBytes ENCRYPTION_CONFIG.ivLength rnd
      | some v => v
    let ciphertext := gcmCtr key iv data
    .ok { ciphertext
          iv
          tag := gcmTag key iv ciphertext
          algorithm := ENCRYPTION_CONFIG.algorithm }

/-- `decryptData(ciphertext, key, iv, tag)`: validate the key, IV and tag
lengths, then decipher; `decipher.final()` releases the plaintext only
when the recomputed tag matches, otherwise it throws the authentication
error and no plaintext is returned. -/
def decryptData (ciphertext key iv tag : Bytes) : Except String String :=
  if key.length ≠ ENCRYPTION_CONFIG.keyLength then
    .error ("Key must be " ++ toString ENCRYPTION_CONFIG.keyLength ++ " bytes")
  else if iv.length ≠ ENCRYPTION_CONFIG.ivLength then
    .error ("IV must be " ++ toString ENCRYPTION_CONFIG.ivLength ++ " bytes")
  else if tag.length ≠ ENCRYPTION_CONFIG.tagLength then
    .error ("Tag must be " ++ toString ENCRYPTION_CONFIG.tagLength ++ " bytes")
  else if tag ≠ gcmTag key iv ciphertext then
    .error gcmAuthErrorMsg
  else
    .ok (utf8DecodeString (gcmCtr key iv ciphertext))

structure PasswordEncrypted where
  encrypted : Bytes
  iv : Bytes
  tag : Bytes
  salt : Bytes
  algorithm : String
  deriving DecidableEq

/-- `encryptWithPassword(data, password)`: derive a key with a fresh
salt, encrypt with a fresh IV, and re-wrap any failure message as
`Encryption failed: ...`. -/
def encryptWithPassword (data password : String)
    (rndSalt rndIv : Nat → Nat) : Except String PasswordEncrypted :=
  let der := deriveKeyFromPassword password none rndSalt
  match encryptData (utf8Encode data) der.1 none rndIv with
  | .ok r =>
      .ok { encrypted := r.ciphertext, iv := r.iv, tag := r.tag,
            salt := der.2, algorithm := ENCRYPTION_CONFIG.algorithm }
  | .error m => .error ("Encryption failed: " ++ m)

/-- `decryptWithPassword(ciphertext, password, salt, iv, tag)`: derive
the key from the password and the given salt, decrypt, and re-wrap any
failure message as `Decryption failed: ...`. -/
def decryptWithPassword (ciphertext : Bytes) (password : String)
    (salt iv tag : Bytes) : Except String String :=
  let der := deriveKeyFromPassword password (some salt) (fun _ => 0)
  match decryptData ciphertext der.1 iv tag with
  | .ok p => .ok p
  | .error m => .error ("Decryption failed: " ++ m)

structure CSVEncrypted where
  payload : Jval
  metaAlgorithm : String
  metaIterations : Nat

/-- `encryptCSVData(csvData, password)`: encrypt, then serialize the
envelope `{salt, iv, tag, ciphertext, algorithm, iterations}` with all
byte fields base64-encoded; failures are re-wrapped as
`CSV encryption failed: ...`. -/
def encryptCSVData (csvData password : String)
    (rndSalt rndIv : Nat → Nat) : Except String CSVEncrypted :=
  match encryptWithPassword csvData password rndSalt rndIv with
  | .ok r =>
      .ok { payload := Jval.obj
              [("salt", .str (base64Encode r.salt)),
               ("iv", .str (base64Encode r.iv)),
               ("tag", .str (base64Encode r.tag)),
               ("ciphertext", .str (base64Encode r.encrypted)),
               ("algorithm", .str ENCRYPTION_CONFIG.algorithm),
               ("iterations", .num ENCRYPTION_CONFIG.pbkdf2Iterations)]
            metaAlgorithm := ENCRYPTION_CONFIG.algorithm
            metaIterations := ENCRYPTION_CONFIG.pbkdf2Iterations }
  | .error m => .error ("CSV encryption failed: " ++ m)

/-- `Buffer.from(data.field, 'base64')` applied to a JSON property:
a string is decoded leniently (never rejected), anything else — a missing
field (`undefined`), a number, a nested object — throws Node's
`ERR_INVALID_ARG_TYPE`. -/
def bufferFromBase64 : Option Jval → Except String Bytes
  | some (.str s) => .ok (base64Decode s)
  | _ => .error bufferTypeErrorMsg

/-- `decryptCSVData(payload, password)`: parse the envelope, base64-decode
the four byte fields (in source order: ciphertext, salt, iv, tag), then
`decryptWithPassword`; any failure is re-wrapped as
`CSV decryption failed: ...`.  The envelope's `algorithm` and
`iterations` fields are never read. -/
def decryptCSVData (payload : Jval) (password : String) :
    Except String String :=
  let run : Except String String := do
    let ciphertext ← bufferFromBase64 (payload.get? "ciphertext")
    let salt ← bufferFromBase64 (payload.get? "salt")
    let iv ← bufferFromBase64 (payload.get? "iv")
    let tag ← bufferFromBase64 (payload.get? "tag")
    decryptWithPassword ciphertext password salt iv tag
  match run with
  | .ok v => .ok v
  | .error m => .error ("CSV decryption failed: " ++ m)

/-! ## server.js: billing data and `buildCSVData` -/

def sealSalt (rndSalt : Nat → Nat) : Bytes :=
  randomBytes ENCRYPTION_CONFIG.saltLength rndSalt

def sealKey (password : String) (rndSalt : Nat → Nat) : Bytes :=
  pbkdf2 password (sealSalt rndSalt) ENCRYPTION_CONFIG.pbkdf2Iterations
    ENCRYPTION_CONFIG.keyLength ENCRYPTION_CONFIG.pbkdf2Digest

def sealIv (rndIv : Nat → Nat) : Bytes :=
  randomBytes ENCRYPTION_CONFIG.ivLength rndIv

def sealCipher (data password : String) (rndSalt rndIv : Nat → Nat) : Bytes :=
  gcmCtr (sealKey password rndSalt) (sealIv rndIv) (utf8Encode data)

def sealTag (data password : String) (rndSalt rndIv : Nat → Nat) : Bytes :=
  gcmTag (sealKey password rndSalt) (sealIv rndIv)
    (sealCipher data password rndSalt rndIv)

/-- The JSON envelope with the four byte fields base64-encoded. -/
def mkEnvelope (salt iv tag ciphertext : Bytes) (algorithm : String)
    (iterations : Nat) : Jval :=
  Jval.obj
    [("salt", .str (base64Encode salt)),
     ("iv", .str (base64Encode iv)),
     ("tag", .str (base64Encode tag)),
     ("ciphertext", .str (base64Encode ciphertext)),
     ("algorithm", .str algorithm),
     ("iterations", .num iterations)]

def sealEnvelope (data password : String) (rndSalt rndIv : Nat → Nat) : Jval :=
  mkEnvelope (sealSalt rndSalt) (sealIv rndIv)
    (sealTag data password rndSalt rndIv)
    (sealCipher data password rndSalt rndIv)
    ENCRYPTION_CONFIG.algorithm ENCRYPTION_CONFIG.pbkdf2Iterations

theorem encryptCSVData_ok (data password : String)
    (rndSalt rndIv : Nat → Nat) :
    encryptCSVData data password rndSalt rndIv
      = .ok { payload := sealEnvelope data password rndSalt rndIv
              metaAlgorithm := ENCRYPTION_CONFIG.algorithm
              metaIterations := ENCRYPTION_CONFIG.pbkdf2Iterations } := by
  simp only [encryptCSVData, encryptWithPassword, encryptData,
    deriveKeyFromPassword, pbkdf2_length, ne_eq, not_true_eq_false,
    if_false, sealEnvelope, mkEnvelope, sealTag, sealCipher, sealKey,
    sealIv, sealSalt, ite_false]

theorem sealSalt_length (rs : Nat → Nat) :
    (sealSalt rs).length = ENCRYPTION_CONFIG.saltLength :=
  randomBytes_length _ _

theorem sealIv_length (ri : Nat → Nat) :
    (sealIv ri).length = ENCRYPTION_CONFIG.ivLength :=
  randomBytes_length _ _

theorem sealSalt_lt (rs : Nat → Nat) : ∀ b ∈ sealSalt rs, b < 256 :=
  randomBytes_lt _ _

theorem sealIv_lt (ri : Nat → Nat) : ∀ b ∈ sealIv ri, b < 256 :=
  randomBytes_lt _ _

theorem sealCipher_lt (data password : String) (rs ri : Nat → Nat) :
    ∀ b ∈ sealCipher data password rs ri, b < 256 :=
  gcmCtr_lt _ _ _ (utf8Encode_lt data)

theorem sealTag_lt (data password : String) (rs ri : Nat → Nat) :
    ∀ b ∈ sealTag data password rs ri, b < 256 :=
  gcmTag_lt _ _ _

/-- Opening a well-formed envelope reduces to `decryptWithPassword` on
the decoded byte fields (the base64 round-trip), with the
`CSV decryption failed:` wrapping on errors.  The envelope's `algorithm`
and `iterations` fields play no role. -/
theorem decryptCSVData_mkEnvelope (saltB ivB tagB ctB : Bytes)
    (alg : String) (iters : Nat) (password : String)
    (hs : ∀ b ∈ saltB, b < 256) (hi : ∀ b ∈ ivB, b < 256)
    (ht : ∀ b ∈ tagB, b < 256) (hc : ∀ b ∈ ctB, b < 256) :
    decryptCSVData (mkEnvelope saltB ivB tagB ctB alg iters) password
      = match decryptWithPassword ctB password saltB ivB tagB with
        | .ok v => .ok v
        | .error m => .error ("CSV decryption failed: " ++ m) := by
  unfold decryptCSVData
  rw [show (mkEnvelope saltB ivB tagB ctB alg iters).get? "ciphertext"
      = some (.str (base64Encode ctB)) from rfl,
    show (mkEnvelope saltB ivB tagB ctB alg iters).get? "salt"
      = some (.str (base64Encode saltB)) from rfl,
    show (mkEnvelope saltB ivB tagB ctB alg iters).get? "iv"
      = some (.str (base64Encode ivB)) from rfl,
    show (mkEnvelope saltB ivB tagB ctB alg iters).get? "tag"
      = some (.str (base64Encode tagB)) from rfl]
  simp only [bufferFromBase64, b64_roundtrip saltB hs, b64_roundtrip ivB hi,
    b64_roundtrip tagB ht, b64_roundtrip ctB hc]
  rfl

/-- The heart of the round-trip: `decryptWithPassword` on the parts the
seal produced recovers the plaintext. -/
theorem decryptWithPassword_seal (data password : String)
    (rs ri : Nat → Nat) :
    decryptWithPassword (sealCipher data password rs ri) password
      (sealSalt rs) (sealIv ri) (sealTag data password rs ri)
      = .ok data := by
  unfold decryptWithPassword deriveKeyFromPassword decryptData
  simp only [sealTag, sealCipher, sealKey, sealIv, sealSalt,
    pbkdf2_length, randomBytes_length, gcmTag_length, ne_eq,
    not_true_eq_false, if_false, ite_false, eq_self_iff_true]
  rw [gcmCtr_involutive, utf8_roundtrip]
  simp [ENCRYPTION_CONFIG]

/-! ## Tamper detection: the algebra behind the tag

As for real GCM over `GF(2^128)` with a nonzero hash key, a change of one
coefficient moves the GHASH polynomial value by `δ · h^j ≠ 0` in a prime
field, and a change of one base-256 digit of the key moves its residue
modulo the odd prime `gcmQ`. -/

instance factPrimeGcmP : Fact (Nat.Prime gcmP) := ⟨by norm_num [gcmP]⟩

instance factPrimeGcmQ : Fact (Nat.Prime gcmQ) := ⟨by norm_num [gcmQ]⟩

instance neZeroGcmP : NeZero gcmP := ⟨by norm_num [gcmP]⟩

instance neZeroGcmQ : NeZero gcmQ := ⟨by norm_num [gcmQ]⟩

theorem natCast_zmod_ne {n : Nat} [NeZero n] {a b : Nat} (ha : a < n)
    (hb : b < n) (hne : a ≠ b) : (a : ZMod n) ≠ (b : ZMod n) := by
  intro h
  exact hne (by rw [← ZMod.val_cast_of_lt ha, ← ZMod.val_cast_of_lt hb, h])

theorem gcmGhash_cast (h : Nat) (cs : List Nat) :
    ∀ acc : Nat,
      ((List.foldl (fun acc c => (acc * h + c) % gcmP) acc cs : Nat) : ZMod gcmP)
        = List.foldl
            (fun (a : ZMod gcmP) (c : Nat) => a * (h : ZMod gcmP) + (c : ZMod gcmP))
            ((acc : Nat) : ZMod gcmP) cs := by
  induction cs with
  | nil => intro acc; rfl
  | cons c cs ih =>
    intro acc
    simp only [List.foldl_cons]
    rw [ih]
    congr 1
    rw [ZMod.natCast_mod]
    push_cast
    ring

theorem foldlZ_inj (h : ZMod gcmP) (hh : h ≠ 0) (cs : List Nat) :
    ∀ a1 a2 : ZMod gcmP, a1 ≠ a2 →
      List.foldl (fun (a : ZMod gcmP) (c : Nat) => a * h + (c : ZMod gcmP)) a1 cs
        ≠ List.foldl (fun (a : ZMod gcmP) (c : Nat) => a * h + (c : ZMod gcmP)) a2 cs := by
  induction cs with
  | nil => intro a1 a2 hne; simpa using hne
  | cons c cs ih =>
    intro a1 a2 hne
    simp only [List.foldl_cons]
    apply ih
    intro heq
    exact hne (mul_right_cancel₀ hh (add_right_cancel heq))

/-- Changing one coefficient (below 256, hence below the field size) of
the GHASH input changes its value, for any hash key in `[1, gcmP)`. -/
theorem gcmGhash_parts_ne (h : Nat) (hh1 : 1 ≤ h) (hh2 : h < gcmP)
    (pre post : List Nat) (d d' : Nat) (hd : d < gcmP) (hd' : d' < gcmP)
    (hne : d ≠ d') :
    gcmGhash h (pre ++ d :: post) ≠ gcmGhash h (pre ++ d' :: post) := by
  intro heq
  have hcast : ((gcmGhash h (pre ++ d :: post) : Nat) : ZMod gcmP)
      = ((gcmGhash h (pre ++ d' :: post) : Nat) : ZMod gcmP) := by rw [heq]
  unfold gcmGhash at hcast
  rw [gcmGhash_cast, gcmGhash_cast, List.foldl_append, List.foldl_append] at hcast
  simp only [List.foldl_cons] at hcast
  have hhz : (h : ZMod gcmP) ≠ 0 := by
    have := natCast_zmod_ne (n := gcmP) hh2 (Nat.pos_of_ne_zero (NeZero.ne gcmP)) (by omega)
    simpa using this
  have hdz : (d : ZMod gcmP) ≠ (d' : ZMod gcmP) := natCast_zmod_ne hd hd' hne
  exact foldlZ_inj _ hhz post _ _
    (fun heq2 => hdz (add_left_cancel heq2)) hcast

/-- Changing one base-256 digit of a byte string changes its value
modulo the odd prime `gcmQ` (256 is invertible and digits stay below
`gcmQ`). -/
theorem natOfBytesZ_parts_ne (pre post : List Nat) (d d' : Nat)
    (hd : d < 256) (hd' : d' < 256) (hne : d ≠ d') :
    ((natOfBytes (pre ++ d :: post) : Nat) : ZMod gcmQ)
      ≠ ((natOfBytes (pre ++ d' :: post) : Nat) : ZMod gcmQ) := by
  induction pre with
  | nil =>
    simp only [List.nil_append, natOfBytes]
    push_cast
    intro heq
    have hdz : (d : ZMod gcmQ) = (d' : ZMod gcmQ) := add_right_cancel heq
    exact natCast_zmod_ne (by norm_num [gcmQ]; omega) (by norm_num [gcmQ]; omega)
      hne hdz
  | cons a pre ih =>
    simp only [List.cons_append, natOfBytes]
    push_cast
    intro heq
    apply ih
    have h256 : ((256 : Nat) : ZMod gcmQ) ≠ 0 := by
      have := natCast_zmod_ne (n := gcmQ) (a := 256) (b := 0)
        (by norm_num [gcmQ]) (Nat.pos_of_ne_zero (NeZero.ne gcmQ)) (by omega)
      simpa using this
    have := add_left_cancel heq
    exact mul_left_cancel₀ h256 this

theorem natOfBytes_mod_parts_ne (pre post : List Nat) (d d' : Nat)
    (hd : d < 256) (hd' : d' < 256) (hne : d ≠ d') :
    natOfBytes (pre ++ d :: post) % gcmQ ≠ natOfBytes (pre ++ d' :: post) % gcmQ := by
  intro heq
  apply natOfBytesZ_parts_ne pre post d d' hd hd' hne
  rw [← ZMod.natCast_mod, heq, ZMod.natCast_mod]

/-- A matching tag forces both the GHASH value and the key residue to
match (the four leading tag bytes are the base-256 digits of the two
numbers, which are below `gcmP` and `gcmQ` respectively). -/
theorem gcmTag_inj_parts (k1 i1 c1 k2 i2 c2 : Bytes)
    (h : gcmTag k1 i1 c1 = gcmTag k2 i2 c2) :
    gcmGhash (gcmH k1) (i1 ++ c1 ++ [c1.length])
        = gcmGhash (gcmH k2) (i2 ++ c2 ++ [c2.length])
      ∧ gcmKeyRes k1 = gcmKeyRes k2 := by
  have hg1 := gcmGhash_lt (gcmH k1) (i1 ++ c1 ++ [c1.length])
  have hg2 := gcmGhash_lt (gcmH k2) (i2 ++ c2 ++ [c2.length])
  have hk1 : gcmKeyRes k1 < gcmQ := Nat.mod_lt _ (by norm_num [gcmQ])
  have hk2 : gcmKeyRes k2 < gcmQ := Nat.mod_lt _ (by norm_num [gcmQ])
  unfold gcmTag at h
  simp only [List.cons_append, List.nil_append, List.cons.injEq] at h
  obtain ⟨h1, h2, h3, h4, -⟩ := h
  norm_num [gcmP] at hg1 hg2
  norm_num [gcmQ] at hk1 hk2
  constructor <;> omega

theorem gcmH_ge_one (key : Bytes) : 1 ≤ gcmH key := by
  simp [gcmH]

theorem gcmH_lt (key : Bytes) : gcmH key < gcmP := by
  have : natOfBytes key % (gcmP - 1) < gcmP - 1 := Nat.mod_lt _ (by norm_num [gcmP])
  unfold gcmH
  omega

theorem map_range_parts (f : Nat → Nat) (n i : Nat) (hi : i < n) :
    (List.range n).map f
      = (List.range i).map f
          ++ f i :: (List.range (n - i - 1)).map (fun j => f (i + 1 + j)) := by
  obtain ⟨m, rfl⟩ : ∃ m, n = i + 1 + m := ⟨n - i - 1, by omega⟩
  rw [show i + 1 + m - i - 1 = m by omega, List.range_add, List.range_succ]
  simp [List.map_map, Function.comp]

theorem getD_parts_lt (pre post : List Nat) (x j : Nat) (h : j < pre.length) :
    (pre ++ x :: post).getD j 0 = pre.getD j 0 :=
  List.getD_append _ _ _ _ h

theorem getD_parts_mid (pre post : List Nat) (x : Nat) :
    (pre ++ x :: post).getD pre.length 0 = x := by
  rw [List.getD_append_right _ _ _ _ le_rfl, Nat.sub_self]
  rfl

theorem getD_parts_gt (pre post : List Nat) (x j : Nat) (h : pre.length < j) :
    (pre ++ x :: post).getD j 0 = post.getD (j - pre.length - 1) 0 := by
  rw [List.getD_append_right _ _ _ _ (le_of_lt h)]
  obtain ⟨m, hm⟩ : ∃ m, j - pre.length = m + 1 := ⟨j - pre.length - 1, by omega⟩
  rw [hm]
  simp

/-- Changing one salt byte changes the derived key in the corresponding
byte only, and hence changes its residue modulo `gcmQ`: the model form of
"a different salt gives a different key". -/
theorem pbkdf2_keyRes_ne (password dg : String) (iters klen : Nat)
    (pre post : List Nat) (b b' : Nat) (hi : pre.length < klen)
    (hb : b < 256) (hb' : b' < 256) (hne : b ≠ b') :
    gcmKeyRes (pbkdf2 password (pre ++ b :: post) iters klen dg)
      ≠ gcmKeyRes (pbkdf2 password (pre ++ b' :: post) iters klen dg) := by
  unfold pbkdf2 gcmKeyRes
  rw [map_range_parts _ klen pre.length hi, map_range_parts _ klen pre.length hi]
  have hpre : (List.range pre.length).map
        (fun i => ((pre ++ b :: post).getD i 0 + natOfBytes (utf8Encode password) * 3
          + natOfBytes (utf8Encode dg) + iters + i * 5) % 256)
      = (List.range pre.length).map
        (fun i => ((pre ++ b' :: post).getD i 0 + natOfBytes (utf8Encode password) * 3
          + natOfBytes (utf8Encode dg) + iters + i * 5) % 256) := by
    apply List.map_congr_left
    intro j hj
    rw [getD_parts_lt _ _ _ _ (List.mem_range.mp hj),
      getD_parts_lt _ _ _ _ (List.mem_range.mp hj)]
  have htail : (List.range (klen - pre.length - 1)).map
        (fun j => ((pre ++ b :: post).getD (pre.length + 1 + j) 0
          + natOfBytes (utf8Encode password) * 3
          + natOfBytes (utf8Encode dg) + iters + (pre.length + 1 + j) * 5) % 256)
      = (List.range (klen - pre.length - 1)).map
        (fun j => ((pre ++ b' :: post).getD (pre.length + 1 + j) 0
          + natOfBytes (utf8Encode password) * 3
          + natOfBytes (utf8Encode dg) + iters + (pre.length + 1 + j) * 5) % 256) := by
    apply List.map_congr_left
    intro j _
    rw [getD_parts_gt _ _ _ _ (by omega), getD_parts_gt _ _ _ _ (by omega)]
  rw [hpre, htail, getD_parts_mid, getD_parts_mid]
  exact natOfBytes_mod_parts_ne _ _ _ _
    (Nat.mod_lt _ (by omega)) (Nat.mod_lt _ (by omega)) (by omega)

theorem flip_ne (b k : Nat) : b ^^^ 2 ^ k ≠ b := by
  intro h
  have h2 : b ^^^ 2 ^ k = b ^^^ 0 := by rw [Nat.xor_zero, h]
  have := Nat.xor_right_inj.mp h2
  exact absurd this (Nat.pos_iff_ne_zero.mp (Nat.pos_pow_of_pos k (by omega)))

theorem flip_lt (b k : Nat) (hb : b < 256) (hk : k < 8) : b ^^^ 2 ^ k < 256 := by
  refine xor_lt_256 hb ?_
  calc 2 ^ k ≤ 2 ^ 7 := Nat.pow_le_pow_right (by omega) (by omega)
    _ < 256 := by norm_num

/-- `decryptWithPassword`, written out with the derived key in place. -/
theorem decryptWithPassword_eq (ct : Bytes) (password : String)
    (salt iv tag : Bytes) :
    decryptWithPassword ct password salt iv tag
      = match decryptData ct
            (pbkdf2 password salt ENCRYPTION_CONFIG.pbkdf2Iterations
              ENCRYPTION_CONFIG.keyLength ENCRYPTION_CONFIG.pbkdf2Digest)
            iv tag with
        | .ok p => .ok p
        | .error m => .error ("Decryption failed: " ++ m) := rfl

theorem decryptData_auth_error (ct key iv tag : Bytes)
    (hkey : key.length = ENCRYPTION_CONFIG.keyLength)
    (hiv : iv.length = ENCRYPTION_CONFIG.ivLength)
    (htag : tag.length = ENCRYPTION_CONFIG.tagLength)
    (hne : tag ≠ gcmTag key iv ct) :
    decryptData ct key iv tag = .error gcmAuthErrorMsg := by
  unfold decryptData
  rw [if_neg (by simp [hkey, ENCRYPTION_CONFIG]),
    if_neg (by simp [hiv, ENCRYPTION_CONFIG]),
    if_neg (by simp [htag, ENCRYPTION_CONFIG]),
    if_pos hne]

theorem decryptWithPassword_auth_error (ct : Bytes) (password : String)
    (salt iv tag : Bytes)
    (hiv : iv.length = ENCRYPTION_CONFIG.ivLength)
    (htag : tag.length = ENCRYPTION_CONFIG.tagLength)
    (hne : tag ≠ gcmTag
        (pbkdf2 password salt ENCRYPTION_CONFIG.pbkdf2Iterations
          ENCRYPTION_CONFIG.keyLength ENCRYPTION_CONFIG.pbkdf2Digest) iv ct) :
    decryptWithPassword ct password salt iv tag
      = .error ("Decryption failed: " ++ gcmAuthErrorMsg) := by
  rw [decryptWithPassword_eq,
    decryptData_auth_error _ _ _ _ (pbkdf2_length _ _ _ _ _) hiv htag hne]

/-- Opening any envelope whose four byte fields hold the given base64
texts reduces to `decryptWithPassword` on the decoded bytes. -/
theorem decryptCSVData_fields (e : Jval) (password : String)
    (saltB ivB tagB ctB : Bytes)
    (hgc : e.get? "ciphertext" = some (.str (base64Encode ctB)))
    (hgs : e.get? "salt" = some (.str (base64Encode saltB)))
    (hgi : e.get? "iv" = some (.str (base64Encode ivB)))
    (hgt : e.get? "tag" = some (.str (base64Encode tagB)))
    (hs : ∀ b ∈ saltB, b < 256) (hi : ∀ b ∈ ivB, b < 256)
    (ht : ∀ b ∈ tagB, b < 256) (hc : ∀ b ∈ ctB, b < 256) :
    decryptCSVData e password
      = match decryptWithPassword ctB password saltB ivB tagB with
        | .ok v => .ok v
        | .error m => .error ("CSV decryption failed: " ++ m) := by
  unfold decryptCSVData
  rw [hgc, hgs, hgi, hgt]
  simp only [bufferFromBase64, b64_roundtrip saltB hs, b64_roundtrip ivB hi,
    b64_roundtrip tagB ht, b64_roundtrip ctB hc]
  rfl

theorem mem_parts_lt (orig : Bytes) (pre post : List Nat) (b x : Nat)
    (horig : orig = pre ++ b :: post) (hlt : ∀ y ∈ orig, y < 256)
    (hx : x < 256) : ∀ y ∈ pre ++ x :: post, y < 256 := by
  intro y hy
  rcases List.mem_append.mp hy with h | h
  · exact hlt y (by rw [horig]; exact List.mem_append.mpr (Or.inl h))
  · rcases List.mem_cons.mp h with rfl | h
    · exact hx
    · exact hlt y (by
        rw [horig]
        exact List.mem_append.mpr (Or.inr (List.mem_cons_of_mem _ h)))

/-- The full error text `open` produces on an authentication failure. -/
def csvAuthErrorMsg : String :=
  "CSV decryption failed: " ++ ("Decryption failed: " ++ gcmAuthErrorMsg)

/-- Flipping a bit of the decoded ciphertext makes `open` fail with the
authentication error. -/
theorem open_flip_ciphertext (data password : String) (rs ri : Nat → Nat)
    (pre post : List Nat) (b k : Nat) (hk : k < 8)
    (hct : sealCipher data password rs ri = pre ++ b :: post) :
    decryptCSVData ((sealEnvelope data password rs ri).set "ciphertext"
        (.str (base64Encode (pre ++ (b ^^^ 2 ^ k) :: post)))) password
      = .error csvAuthErrorMsg := by
  have hb : b < 256 := sealCipher_lt data password rs ri b (by rw [hct]; simp)
  have hb' : b ^^^ 2 ^ k < 256 := flip_lt b k hb hk
  have hobj : ∃ fs, sealEnvelope data password rs ri = .obj fs := ⟨_, rfl⟩
  rw [decryptCSVData_fields
      ((sealEnvelope data password rs ri).set "ciphertext"
        (.str (base64Encode (pre ++ (b ^^^ 2 ^ k) :: post))))
      password (sealSalt rs) (sealIv ri)
      (sealTag data password rs ri) (pre ++ (b ^^^ 2 ^ k) :: post)
      (Jval.get?_set_same (sealEnvelope data password rs ri) _ _ hobj)
      (by rw [Jval.get?_set_ne (sealEnvelope data password rs ri) _ _ _
          (by decide)]; rfl)
      (by rw [Jval.get?_set_ne (sealEnvelope data password rs ri) _ _ _
          (by decide)]; rfl)
      (by rw [Jval.get?_set_ne (sealEnvelope data password rs ri) _ _ _
          (by decide)]; rfl)
      (sealSalt_lt rs) (sealIv_lt ri) (sealTag_lt data password rs ri)
      (mem_parts_lt _ _ _ _ _ hct (sealCipher_lt data password rs ri) hb')]
  rw [decryptWithPassword_auth_error _ _ _ _ _ (sealIv_length ri)
      (by simp [sealTag, gcmTag_length, ENCRYPTION_CONFIG]) ?hne]
  · rfl
  case hne =>
    intro heq
    have heq' : gcmTag (sealKey password rs) (sealIv ri)
          (sealCipher data password rs ri)
        = gcmTag (sealKey password rs) (sealIv ri)
          (pre ++ (b ^^^ 2 ^ k) :: post) := heq
    have hg := (gcmTag_inj_parts _ _ _ _ _ _ heq').1
    have hlen : (pre ++ (b ^^^ 2 ^ k) :: post).length
        = (sealCipher data password rs ri).length := by
      rw [hct]; simp
    rw [hlen, hct] at hg
    have hcoef : ∀ (x n : Nat), sealIv ri ++ (pre ++ x :: post) ++ [n]
        = (sealIv ri ++ pre) ++ x :: (post ++ [n]) := by
      intro x n
      simp [List.append_assoc]
    rw [hcoef b _, hcoef (b ^^^ 2 ^ k) _] at hg
    exact gcmGhash_parts_ne (gcmH (sealKey password rs))
      (gcmH_ge_one _) (gcmH_lt _) _ _ b (b ^^^ 2 ^ k)
      (by norm_num [gcmP]; omega) (by norm_num [gcmP]; omega)
      (Ne.symm (flip_ne b k)) hg

/-- Flipping a bit of the decoded tag makes `open` fail with the
authentication error. -/
theorem open_flip_tag (data password : String) (rs ri : Nat → Nat)
    (pre post : List Nat) (b k : Nat) (hk : k < 8)
    (htg : sealTag data password rs ri = pre ++ b :: post) :
    decryptCSVData ((sealEnvelope data password rs ri).set "tag"
        (.str (base64Encode (pre ++ (b ^^^ 2 ^ k) :: post)))) password
      = .error csvAuthErrorMsg := by
  have hb : b < 256 := sealTag_lt data password rs ri b (by rw [htg]; simp)
  have hb' : b ^^^ 2 ^ k < 256 := flip_lt b k hb hk
  have hobj : ∃ fs, sealEnvelope data password rs ri = .obj fs := ⟨_, rfl⟩
  have hlen : (pre ++ (b ^^^ 2 ^ k) :: post).length
      = ENCRYPTION_CONFIG.tagLength := by
    have h1 := congrArg List.length htg
    rw [sealTag, gcmTag_length] at h1
    simp only [List.length_append, List.length_cons] at h1 ⊢
    simp only [ENCRYPTION_CONFIG]
    omega
  rw [decryptCSVData_fields
      ((sealEnvelope data password rs ri).set "tag"
        (.str (base64Encode (pre ++ (b ^^^ 2 ^ k) :: post))))
      password (sealSalt rs) (sealIv ri)
      (pre ++ (b ^^^ 2 ^ k) :: post) (sealCipher data password rs ri)
      (by rw [Jval.get?_set_ne (sealEnvelope data password rs ri) _ _ _
          (by decide)]; rfl)
      (by rw [Jval.get?_set_ne (sealEnvelope data password rs ri) _ _ _
          (by decide)]; rfl)
      (by rw [Jval.get?_set_ne (sealEnvelope data password rs ri) _ _ _
          (by decide)]; rfl)
      (Jval.get?_set_same (sealEnvelope data password rs ri) _ _ hobj)
      (sealSalt_lt rs) (sealIv_lt ri)
      (mem_parts_lt _ _ _ _ _ htg (sealTag_lt data password rs ri) hb')
      (sealCipher_lt data password rs ri)]
  rw [decryptWithPassword_auth_error _ _ _ _ _ (sealIv_length ri) hlen ?hne]
  · rfl
  case hne =>
    have hstored : gcmTag
        (pbkdf2 password (sealSalt rs) ENCRYPTION_CONFIG.pbkdf2Iterations
          ENCRYPTION_CONFIG.keyLength ENCRYPTION_CONFIG.pbkdf2Digest)
        (sealIv ri) (sealCipher data password rs ri)
        = sealTag data password rs ri := rfl
    rw [hstored, htg]
    intro h
    have h2 := List.append_cancel_left h
    simp only [List.cons.injEq] at h2
    exact flip_ne b k h2.1

/-- Flipping a bit of the decoded nonce (IV) makes `open` fail with the
authentication error. -/
theorem open_flip_iv (data password : String) (rs ri : Nat → Nat)
    (pre post : List Nat) (b k : Nat) (hk : k < 8)
    (hiv : sealIv ri = pre ++ b :: post) :
    decryptCSVData ((sealEnvelope data password rs ri).set "iv"
        (.str (base64Encode (pre ++ (b ^^^ 2 ^ k) :: post)))) password
      = .error csvAuthErrorMsg := by
  have hb : b < 256 := sealIv_lt ri b (by rw [hiv]; simp)
  have hb' : b ^^^ 2 ^ k < 256 := flip_lt b k hb hk
  have hobj : ∃ fs, sealEnvelope data password rs ri = .obj fs := ⟨_, rfl⟩
  have hlen : (pre ++ (b ^^^ 2 ^ k) :: post).length
      = ENCRYPTION_CONFIG.ivLength := by
    have h1 := congrArg List.length hiv
    rw [sealIv_length] at h1
    simp only [List.length_append, List.length_cons] at h1 ⊢
    omega
  rw [decryptCSVData_fields
      ((sealEnvelope data password rs ri).set "iv"
        (.str (base64Encode (pre ++ (b ^^^ 2 ^ k) :: post))))
      password (sealSalt rs) (pre ++ (b ^^^ 2 ^ k) :: post)
      (sealTag data password rs ri) (sealCipher data password rs ri)
      (by rw [Jval.get?_set_ne (sealEnvelope data password rs ri) _ _ _
          (by decide)]; rfl)
      (by rw [Jval.get?_set_ne (sealEnvelope data password rs ri) _ _ _
          (by decide)]; rfl)
      (Jval.get?_set_same (sealEnvelope data password rs ri) _ _ hobj)
      (by rw [Jval.get?_set_ne (sealEnvelope data password rs ri) _ _ _
          (by decide)]; rfl)
      (sealSalt_lt rs)
      (mem_parts_lt _ _ _ _ _ hiv (sealIv_lt ri) hb')
      (sealTag_lt data password rs ri)
      (sealCipher_lt data password rs ri)]
  rw [decryptWithPassword_auth_error _ _ _ _ _ hlen
      (by simp [sealTag, gcmTag_length, ENCRYPTION_CONFIG]) ?hne]
  · rfl
  case hne =>
    intro heq
    have heq' : gcmTag (sealKey password rs) (sealIv ri)
          (sealCipher data password rs ri)
        = gcmTag (sealKey password rs) (pre ++ (b ^^^ 2 ^ k) :: post)
          (sealCipher data password rs ri) := heq
    have hg := (gcmTag_inj_parts _ _ _ _ _ _ heq').1
    rw [hiv] at hg
    simp only [List.append_assoc, List.cons_append] at hg
    exact gcmGhash_parts_ne (gcmH (sealKey password rs))
      (gcmH_ge_one _) (gcmH_lt _) pre
      (post ++ (sealCipher data password rs ri
        ++ [(sealCipher data password rs ri).length])) b (b ^^^ 2 ^ k)
      (by norm_num [gcmP]; omega) (by norm_num [gcmP]; omega)
      (Ne.symm (flip_ne b k)) hg

/-- Flipping a bit of the decoded salt changes the derived key and makes
`open` fail with the authentication error. -/
theorem open_flip_salt (data password : String) (rs ri : Nat → Nat)
    (pre post : List Nat) (b k : Nat) (hk : k < 8)
    (hsl : sealSalt rs = pre ++ b :: post) :
    decryptCSVData ((sealEnvelope data password rs ri).set "salt"
        (.str (base64Encode (pre ++ (b ^^^ 2 ^ k) :: post)))) password
      = .error csvAuthErrorMsg := by
  have hb : b < 256 := sealSalt_lt rs b (by rw [hsl]; simp)
  have hb' : b ^^^ 2 ^ k < 256 := flip_lt b k hb hk
  have hobj : ∃ fs, sealEnvelope data password rs ri = .obj fs := ⟨_, rfl⟩
  have hpre : pre.length < ENCRYPTION_CONFIG.keyLength := by
    have h1 := congrArg List.length hsl
    rw [sealSalt_length] at h1
    simp only [List.length_append, List.length_cons] at h1
    simp only [ENCRYPTION_CONFIG] at h1 ⊢
    omega
  rw [decryptCSVData_fields
      ((sealEnvelope data password rs ri).set "salt"
        (.str (base64Encode (pre ++ (b ^^^ 2 ^ k) :: post))))
      password (pre ++ (b ^^^ 2 ^ k) :: post) (sealIv ri)
      (sealTag data password rs ri) (sealCipher data password rs ri)
      (by rw [Jval.get?_set_ne (sealEnvelope data password rs ri) _ _ _
          (by decide)]; rfl)
      (Jval.get?_set_same (sealEnvelope data password rs ri) _ _ hobj)
      (by rw [Jval.get?_set_ne (sealEnvelope data password rs ri) _ _ _
          (by decide)]; rfl)
      (by rw [Jval.get?_set_ne (sealEnvelope data password rs ri) _ _ _
          (by decide)]; rfl)
      (mem_parts_lt _ _ _ _ _ hsl (sealSalt_lt rs) hb')
      (sealIv_lt ri)
      (sealTag_lt data password rs ri)
      (sealCipher_lt data password rs ri)]
  rw [decryptWithPassword_auth_error _ _ _ _ _ (sealIv_length ri)
      (by simp [sealTag, gcmTag_length, ENCRYPTION_CONFIG]) ?hne]
  · rfl
  case hne =>
    intro heq
    have heq' : gcmTag (sealKey password rs) (sealIv ri)
          (sealCipher data password rs ri)
        = gcmTag (pbkdf2 password (pre ++ (b ^^^ 2 ^ k) :: post)
            ENCRYPTION_CONFIG.pbkdf2Iterations ENCRYPTION_CONFIG.keyLength
            ENCRYPTION_CONFIG.pbkdf2Digest)
          (sealIv ri) (sealCipher data password rs ri) := heq
    have hr := (gcmTag_inj_parts _ _ _ _ _ _ heq').2
    have hkeyeq : sealKey password rs
        = pbkdf2 password (pre ++ b :: post)
            ENCRYPTION_CONFIG.pbkdf2Iterations ENCRYPTION_CONFIG.keyLength
            ENCRYPTION_CONFIG.pbkdf2Digest := by
      rw [sealKey, hsl]
    rw [hkeyeq] at hr
    exact pbkdf2_keyRes_ne password ENCRYPTION_CONFIG.pbkdf2Digest
      ENCRYPTION_CONFIG.pbkdf2Iterations ENCRYPTION_CONFIG.keyLength
      pre post b (b ^^^ 2 ^ k) hpre hb hb' (Ne.symm (flip_ne b k)) hr

/-! ## Decidable equality for `Except`, used to evaluate the model on
concrete inputs -/

instance exceptDecEq {ε α : Type} [DecidableEq ε] [DecidableEq α] :
    DecidableEq (Except ε α) := fun x y =>
  match x, y with
  | .ok v, .ok w =>
    if h : v = w then isTrue (by rw [h])
    else isFalse (fun hh => by cases hh; exact h rfl)
  | .ok _, .error _ => isFalse (fun hh => Except.noConfusion hh)
  | .error _, .ok _ => isFalse (fun hh => Except.noConfusion hh)
  | .error v, .error w =>
    if h : v = w then isTrue (by rw [h])
    else isFalse (fun hh => by cases hh; exact h rfl)

/-- C1: for every plaintext string `P` and password `W`, sealing `P`
under `W` (`encryptCSVData`: fresh-salt key derivation, AES-256-GCM with
a fresh IV, JSON envelope with base64 fields) and opening the resulting
envelope with the same password (`decryptCSVData`) returns exactly `P`;
in particular the seal always succeeds. -/
theorem C1_seal_open_roundtrip (P W : String) (rndSalt rndIv : Nat → Nat) :
    (encryptCSVData P W rndSalt rndIv).map
        (fun r => decryptCSVData r.payload W) = .ok (.ok P) := by
  rw [encryptCSVData_ok]
  simp only [Except.map]
  rw [sealEnvelope, decryptCSVData_mkEnvelope _ _ _ _ _ _ W
      (sealSalt_lt rndSalt) (sealIv_lt rndIv) (sealTag_lt P W rndSalt rndIv)
      (sealCipher_lt P W rndSalt rndIv),
    decryptWithPassword_seal]

/-- C2: every single-bit change (bit `k` of the byte between `pre` and
`post`) to the decoded bytes of the ciphertext, tag, nonce (iv) or salt
field of the envelope the seal produced makes `open` fail with the
authentication error, returning no plaintext; the first conjunct pins the
envelope to the output of `encryptCSVData`. -/
theorem C2_tamper_detection (P W : String) (rs ri : Nat → Nat)
    (pre post : List Nat) (b k : Nat) :
    (encryptCSVData P W rs ri).map (fun r => r.payload)
        = .ok (sealEnvelope P W rs ri)
    ∧ (k < 8 → sealCipher P W rs ri = pre ++ b :: post →
        decryptCSVData ((sealEnvelope P W rs ri).set "ciphertext"
          (.str (base64Encode (pre ++ (b ^^^ 2 ^ k) :: post)))) W
          = .error csvAuthErrorMsg)
    ∧ (k < 8 → sealTag P W rs ri = pre ++ b :: post →
        decryptCSVData ((sealEnvelope P W rs ri).set "tag"
          (.str (base64Encode (pre ++ (b ^^^ 2 ^ k) :: post)))) W
          = .error csvAuthErrorMsg)
    ∧ (k < 8 → sealIv ri = pre ++ b :: post →
        decryptCSVData ((sealEnvelope P W rs ri).set "iv"
          (.str (base64Encode (pre ++ (b ^^^ 2 ^ k) :: post)))) W
          = .error csvAuthErrorMsg)
    ∧ (k < 8 → sealSalt rs = pre ++ b :: post →
        decryptCSVData ((sealEnvelope P W rs ri).set "salt"
          (.str (base64Encode (pre ++ (b ^^^ 2 ^ k) :: post)))) W
          = .error csvAuthErrorMsg) :=
  ⟨by rw [encryptCSVData_ok]; rfl,
   fun hk h => open_flip_ciphertext P W rs ri pre post b k hk h,
   fun hk h => open_flip_tag P W rs ri pre post b k hk h,
   fun hk h => open_flip_iv P W rs ri pre post b k hk h,
   fun hk h => open_flip_salt P W rs ri pre post b k hk h⟩

theorem C2_tamper_detection_witness :
    decryptCSVData ((sealEnvelope "A" "pw" (fun _ => 0) (fun _ => 0)).set
        "ciphertext" (.str (base64Encode ([] ++ (104 ^^^ 2 ^ 0) :: [])))) "pw"
      = .error csvAuthErrorMsg
    ∧ decryptCSVData ((sealEnvelope "A" "pw" (fun _ => 0) (fun _ => 0)).set
        "tag" (.str (base64Encode ([] ++ (232 ^^^ 2 ^ 0)
          :: [1, 169, 1, 0, 0, 0, 0, 0, 0, 0, 0, 0, 0, 0, 0])))) "pw"
      = .error csvAuthErrorMsg
    ∧ decryptCSVData ((sealEnvelope "A" "pw" (fun _ => 0) (fun _ => 0)).set
        "iv" (.str (base64Encode ([] ++ (0 ^^^ 2 ^ 0)
          :: List.replicate 15 0)))) "pw"
      = .error csvAuthErrorMsg
    ∧ decryptCSVData ((sealEnvelope "A" "pw" (fun _ => 0) (fun _ => 0)).set
        "salt" (.str (base64Encode ([] ++ (0 ^^^ 2 ^ 0)
          :: List.replicate 31 0)))) "pw"
      = .error csvAuthErrorMsg :=
  ⟨(C2_tamper_detection "A" "pw" (fun _ => 0) (fun _ => 0) [] [] 104 0).2.1
      (by omega) (by decide),
   (C2_tamper_detection "A" "pw" (fun _ => 0) (fun _ => 0) []
      [1, 169, 1, 0, 0, 0, 0, 0, 0, 0, 0, 0, 0, 0, 0] 232 0).2.2.1
      (by omega) (by decide),
   (C2_tamper_detection "A" "pw" (fun _ => 0) (fun _ => 0) []
      (List.replicate 15 0) 0 0).2.2.2.1 (by omega) (by decide),
   (C2_tamper_detection "A" "pw" (fun _ => 0) (fun _ => 0) []
      (List.replicate 31 0) 0 0).2.2.2.2 (by omega) (by decide)⟩

/-- C3: opening `seal(P, W1)` with a different password `W2` fails with
the authentication error and returns no plaintext.  The hypothesis
`hforge` is the GCM-unforgeability side condition: the tag recomputed
under the key derived from `W2` does not coincide with the stored tag
(for the real PBKDF2/GCM pair this can fail only with negligible
probability; the model makes the assumption explicit and the witness
discharges it on concrete inputs). -/
theorem C3_wrong_password (P W1 W2 : String) (rs ri : Nat → Nat)
    (hW : W1 ≠ W2)
    (hforge : gcmTag
        (pbkdf2 W2 (sealSalt rs) ENCRYPTION_CONFIG.pbkdf2Iterations
          ENCRYPTION_CONFIG.keyLength ENCRYPTION_CONFIG.pbkdf2Digest)
        (sealIv ri) (sealCipher P W1 rs ri) ≠ sealTag P W1 rs ri) :
    (encryptCSVData P W1 rs ri).map
        (fun r => decryptCSVData r.payload W2)
      = .ok (.error csvAuthErrorMsg) := by
  rw [encryptCSVData_ok]
  simp only [Except.map]
  rw [sealEnvelope, decryptCSVData_mkEnvelope _ _ _ _ _ _ W2
      (sealSalt_lt rs) (sealIv_lt ri) (sealTag_lt P W1 rs ri)
      (sealCipher_lt P W1 rs ri),
    decryptWithPassword_auth_error _ _ _ _ _ (sealIv_length ri)
      (by simp [sealTag, gcmTag_length, ENCRYPTION_CONFIG])
      (Ne.symm hforge)]
  rfl

theorem C3_wrong_password_witness :
    "pw" ≠ "qw"
    ∧ (encryptCSVData "A" "pw" (fun _ => 0) (fun _ => 0)).map
        (fun r => decryptCSVData r.payload "qw")
      = .ok (.error csvAuthErrorMsg) :=
  ⟨by decide,
   C3_wrong_password "A" "pw" "qw" (fun _ => 0) (fun _ => 0) (by decide)
     (by decide)⟩

/-- C4 (amended): `open` derives the key from the password and the
envelope's stored salt with the fixed configured iteration count; the
envelope's `iterations` field is never read, so overwriting it does not
change the result of `decryptCSVData`. -/
theorem C4_iterations_ignored (env : Jval) (password : String) (n : Nat) :
    decryptCSVData (env.set "iterations" (.num n)) password
      = decryptCSVData env password := by
  unfold decryptCSVData
  rw [Jval.get?_set_ne env _ _ _ (by decide),
    Jval.get?_set_ne env _ _ _ (by decide),
    Jval.get?_set_ne env _ _ _ (by decide),
    Jval.get?_set_ne env _ _ _ (by decide)]

/-- C4 (counterexample to the claim as stated): an envelope sealed at the
configured 100000 iterations but recording `iterations = 1` still
decrypts successfully, although PBKDF2 at 1 iteration yields a different
key — so `open` does not use the envelope's stored iteration count. -/
theorem C4_counterexample :
    decryptCSVData ((sealEnvelope "A" "pw" (fun _ => 0) (fun _ => 1)).set
        "iterations" (.num 1)) "pw" = .ok "A"
    ∧ pbkdf2 "pw" (sealSalt (fun _ => 0)) 1 ENCRYPTION_CONFIG.keyLength
        ENCRYPTION_CONFIG.pbkdf2Digest
      ≠ pbkdf2 "pw" (sealSalt (fun _ => 0))
          ENCRYPTION_CONFIG.pbkdf2Iterations ENCRYPTION_CONFIG.keyLength
          ENCRYPTION_CONFIG.pbkdf2Digest :=
  ⟨by decide, by decide⟩

/-- C5 (amended): an envelope missing any of the four required byte
fields (`ciphertext`, `salt`, `iv` or `tag`) fails before any key
derivation with Node's `Buffer` type error — the same result for every
password — and that message is distinct from the authentication-failure
message.  (The first field read that is not a string raises the error;
fields before the missing one, whatever their shape, either decode
leniently or raise the very same type error.)  Non-base64 text in a byte
field, by contrast, is decoded leniently and is not rejected as a format
error (see the counterexample). -/
theorem C5_missing_field_rejected (env : Jval) (pw1 pw2 : String)
    (h : env.get? "ciphertext" = none ∨ env.get? "salt" = none
      ∨ env.get? "iv" = none ∨ env.get? "tag" = none) :
    decryptCSVData env pw1
        = .error ("CSV decryption failed: " ++ bufferTypeErrorMsg)
    ∧ decryptCSVData env pw1 = decryptCSVData env pw2
    ∧ ("CSV decryption failed: " ++ bufferTypeErrorMsg) ≠ csvAuthErrorMsg := by
  have key : ∀ pw : String, decryptCSVData env pw
      = .error ("CSV decryption failed: " ++ bufferTypeErrorMsg) := by
    intro pw
    unfold decryptCSVData
    rcases hc : env.get? "ciphertext" with _ | (s1 | n1 | f1)
    · rfl
    · rcases hs : env.get? "salt" with _ | (s2 | n2 | f2)
      · rfl
      · rcases hi : env.get? "iv" with _ | (s3 | n3 | f3)
        · rfl
        · rcases ht : env.get? "tag" with _ | (s4 | n4 | f4)
          · rfl
          · simp_all
          · rfl
          · rfl
        · rfl
        · rfl
      · rfl
      · rfl
    · rfl
    · rfl
  exact ⟨key pw1, (key pw1).trans (key pw2).symm, by decide⟩

theorem C5_missing_field_rejected_witness :
    ((Jval.obj [("ciphertext", Jval.str "AA=="), ("iv", Jval.str "AA=="),
        ("tag", Jval.str "AA==")]).get? "ciphertext" = none
      ∨ (Jval.obj [("ciphertext", Jval.str "AA=="), ("iv", Jval.str "AA=="),
        ("tag", Jval.str "AA==")]).get? "salt" = none
      ∨ (Jval.obj [("ciphertext", Jval.str "AA=="), ("iv", Jval.str "AA=="),
        ("tag", Jval.str "AA==")]).get? "iv" = none
      ∨ (Jval.obj [("ciphertext", Jval.str "AA=="), ("iv", Jval.str "AA=="),
        ("tag", Jval.str "AA==")]).get? "tag" = none)
    ∧ decryptCSVData (Jval.obj [("ciphertext", Jval.str "AA=="),
        ("iv", Jval.str "AA=="), ("tag", Jval.str "AA==")]) "a"
        = .error ("CSV decryption failed: " ++ bufferTypeErrorMsg)
    ∧ decryptCSVData (Jval.obj [("ciphertext", Jval.str "AA=="),
        ("iv", Jval.str "AA=="), ("tag", Jval.str "AA==")]) "a"
      = decryptCSVData (Jval.obj [("ciphertext", Jval.str "AA=="),
        ("iv", Jval.str "AA=="), ("tag", Jval.str "AA==")]) "b"
    ∧ ("CSV decryption failed: " ++ bufferTypeErrorMsg) ≠ csvAuthErrorMsg :=
  ⟨Or.inr (Or.inl rfl),
   (C5_missing_field_rejected (Jval.obj [("ciphertext", Jval.str "AA=="),
      ("iv", Jval.str "AA=="), ("tag", Jval.str "AA==")]) "a" "b"
      (Or.inr (Or.inl rfl))).1,
   (C5_missing_field_rejected (Jval.obj [("ciphertext", Jval.str "AA=="),
      ("iv", Jval.str "AA=="), ("tag", Jval.str "AA==")]) "a" "b"
      (Or.inr (Or.inl rfl))).2.1,
   (C5_missing_field_rejected (Jval.obj [("ciphertext", Jval.str "AA=="),
      ("iv", Jval.str "AA=="), ("tag", Jval.str "AA==")]) "a" "b"
      (Or.inr (Or.inl rfl))).2.2⟩

/-- C5 (counterexample to the claim as stated): a structurally invalid
envelope whose `salt` field is not base64 (`"!!!!"`) is NOT rejected with
a format error before the cryptographic operations: the lenient decoder
strips the invalid characters, key derivation and decryption run, and
`open` fails with the authentication-failure message instead. -/
theorem C5_counterexample :
    decryptCSVData ((sealEnvelope "A" "pw" (fun i => i + 1) (fun _ => 1)).set
        "salt" (.str "!!!!")) "pw" = .error csvAuthErrorMsg
    ∧ csvAuthErrorMsg ≠ "CSV decryption failed: " ++ bufferTypeErrorMsg :=
  ⟨by decide, by decide⟩

/-- C6 (amended): `deriveKeyFromPassword` performs no parameter
validation and never signals `InvalidParameter`: the key length and
iteration count are fixed positive configuration constants, and a
supplied salt of any length is accepted unchanged, the call returning a
key of the configured length. -/
theorem C6_no_parameter_validation (password : String) (salt : Bytes)
    (rnd : Nat → Nat) :
    (deriveKeyFromPassword password (some salt) rnd).1.length
        = ENCRYPTION_CONFIG.keyLength
    ∧ (deriveKeyFromPassword password (some salt) rnd).2 = salt
    ∧ 0 < ENCRYPTION_CONFIG.keyLength
    ∧ 0 < ENCRYPTION_CONFIG.pbkdf2Iterations :=
  ⟨pbkdf2_length _ _ _ _ _, rfl, by decide, by decide⟩

/-- C6 (counterexample to the claim as stated): a 1-byte salt — not the
"required" 32 bytes — is accepted without any `InvalidParameter`
failure: derivation succeeds and returns a 32-byte key and the salt
unchanged. -/
theorem C6_counterexample :
    (deriveKeyFromPassword "pw" (some [7]) (fun _ => 0)).1.length
        = ENCRYPTION_CONFIG.keyLength
    ∧ (deriveKeyFromPassword "pw" (some [7]) (fun _ => 0)).2 = [7] :=
  ⟨pbkdf2_length _ _ _ _ _, rfl⟩

/-- C7: for every plaintext buffer and 32-byte key, `encryptData`
succeeds and produces a ciphertext of exactly the plaintext's byte
length together with a 16-byte tag in a separate field of the result. -/
theorem C7_ciphertext_and_tag_lengths (data key : Bytes) (iv : Option Bytes)
    (rnd : Nat → Nat) (hkey : key.length = ENCRYPTION_CONFIG.keyLength) :
    ∃ r, encryptData data key iv rnd = .ok r
      ∧ r.ciphertext.length = data.length
      ∧ r.tag.length = ENCRYPTION_CONFIG.tagLength := by
  unfold encryptData
  rw [if_neg (by simp [hkey])]
  exact ⟨_, rfl, gcmCtr_length _ _ _, gcmTag_length _ _ _⟩

theorem C7_ciphertext_and_tag_lengths_witness :
    (List.replicate 32 0 : Bytes).length = ENCRYPTION_CONFIG.keyLength
    ∧ ∃ r, encryptData [1, 2, 3] (List.replicate 32 0) none (fun _ => 0) = .ok r
      ∧ r.ciphertext.length = ([1, 2, 3] : Bytes).length
      ∧ r.tag.length = ENCRYPTION_CONFIG.tagLength :=
  ⟨by decide,
   C7_ciphertext_and_tag_lengths [1, 2, 3] (List.replicate 32 0) none
     (fun _ => 0) (by decide)⟩

/-- C8: key derivation is deterministic — with the same password and the
same salt the result does not depend on the ambient randomness stream at
all, and the key is the fixed PBKDF2 function of password, salt,
iteration count, key length and digest. -/
theorem C8_derivation_deterministic (password : String) (salt : Bytes)
    (r1 r2 : Nat → Nat) :
    deriveKeyFromPassword password (some salt) r1
        = deriveKeyFromPassword password (some salt) r2
    ∧ (deriveKeyFromPassword password (some salt) r1).1
        = pbkdf2 password salt ENCRYPTION_CONFIG.pbkdf2Iterations
            ENCRYPTION_CONFIG.keyLength ENCRYPTION_CONFIG.pbkdf2Digest :=
  ⟨rfl, rfl⟩

/-- C10: the cipher unit validates buffer lengths first: `decryptData`
errors on a key that is not 32 bytes, then on an IV that is not 16
bytes, then on a tag that is not 16 bytes, and `encryptData` errors on a
wrong-size key; under correct lengths `decryptData` reaches only the
authentication check — it either fails authentication or returns the
deciphered plaintext, never a length error. -/
theorem C10_buffer_length_validation (ciphertext key iv tag : Bytes)
    (ivOpt : Option Bytes) (rnd : Nat → Nat) :
    (key.length ≠ ENCRYPTION_CONFIG.keyLength →
      decryptData ciphertext key iv tag
          = .error ("Key must be " ++ toString ENCRYPTION_CONFIG.keyLength
              ++ " bytes")
      ∧ encryptData ciphertext key ivOpt rnd
          = .error ("Key must be " ++ toString ENCRYPTION_CONFIG.keyLength
              ++ " bytes"))
    ∧ (key.length = ENCRYPTION_CONFIG.keyLength →
        iv.length ≠ ENCRYPTION_CONFIG.ivLength →
      decryptData ciphertext key iv tag
        = .error ("IV must be " ++ toString ENCRYPTION_CONFIG.ivLength
            ++ " bytes"))
    ∧ (key.length = ENCRYPTION_CONFIG.keyLength →
        iv.length = ENCRYPTION_CONFIG.ivLength →
        tag.length ≠ ENCRYPTION_CONFIG.tagLength →
      decryptData ciphertext key iv tag
        = .error ("Tag must be " ++ toString ENCRYPTION_CONFIG.tagLength
            ++ " bytes"))
    ∧ (key.length = ENCRYPTION_CONFIG.keyLength →
        iv.length = ENCRYPTION_CONFIG.ivLength →
        tag.length = ENCRYPTION_CONFIG.tagLength →
      decryptData ciphertext key iv tag = .error gcmAuthErrorMsg
      ∨ decryptData ciphertext key iv tag
          = .ok (utf8DecodeString (gcmCtr key iv ciphertext))) := by
  refine ⟨fun hk => ⟨?_, ?_⟩, fun hk hi => ?_, fun hk hi ht => ?_,
    fun hk hi ht => ?_⟩
  · unfold decryptData
    rw [if_pos hk]
  · unfold encryptData
    rw [if_pos hk]
  · unfold decryptData
    rw [if_neg (by simp [hk]), if_pos hi]
  · unfold decryptData
    rw [if_neg (by simp [hk]), if_neg (by simp [hi]), if_pos ht]
  · unfold decryptData
    rw [if_neg (by simp [hk]), if_neg (by simp [hi]), if_neg (by simp [ht])]
    by_cases hauth : tag = gcmTag key iv ciphertext
    · right
      rw [if_neg (by simp [hauth])]
    · left
      rw [if_pos hauth]

theorem C10_buffer_length_validation_witness :
    (decryptData [] [] [] [] = .error ("Key must be "
        ++ toString ENCRYPTION_CONFIG.keyLength ++ " bytes")
      ∧ encryptData [] [] none (fun _ => 0) = .error ("Key must be "
        ++ toString ENCRYPTION_CONFIG.keyLength ++ " bytes"))
    ∧ decryptData [] (List.replicate 32 0) [] []
        = .error ("IV must be " ++ toString ENCRYPTION_CONFIG.ivLength
            ++ " bytes")
    ∧ decryptData [] (List.replicate 32 0) (List.replicate 16 0) []
        = .error ("Tag must be " ++ toString ENCRYPTION_CONFIG.tagLength
            ++ " bytes")
    ∧ (decryptData [] (List.replicate 32 0) (List.replicate 16 0)
          (List.replicate 16 0) = .error gcmAuthErrorMsg
        ∨ decryptData [] (List.replicate 32 0) (List.replicate 16 0)
            (List.replicate 16 0)
          = .ok (utf8DecodeString (gcmCtr (List.replicate 32 0)
              (List.replicate 16 0) []))) :=
  ⟨(C10_buffer_length_validation [] [] [] [] none (fun _ => 0)).1 (by decide),
   (C10_buffer_length_validation [] (List.replicate 32 0) [] [] none
      (fun _ => 0)).2.1 (by decide) (by decide),
   (C10_buffer_length_validation [] (List.replicate 32 0)
      (List.replicate 16 0) [] none (fun _ => 0)).2.2.1
      (by decide) (by decide) (by decide),
   (C10_buffer_length_validation [] (List.replicate 32 0)
      (List.replicate 16 0) (List.replicate 16 0) none (fun _ => 0)).2.2.2
      (by decide) (by decide) (by decide)⟩
